import Mathlib

/-!
Verification of the Hangman web application (`src/app.py`) against its
natural-language specification.  The game logic is shallowly embedded:
the per-session game state becomes a structure, the POST handler's
letter-guess branch becomes a state-transition function, and the word
sourcing function becomes a function of an explicit HTTP/randomness
oracle.  Python strings are `List Char`; the session's
`guessed_letters` list (a list of one-character strings) is
`List (List Char)`; Python `int` is `Int`.
-/

/-- `MAX_LIVES = 6` from `app.py`. -/
def MAX_LIVES : Int := 6

/-- The hardcoded genre list from `app.py`. -/
def GENRE_LIST : List String := ["Animals", "Sports", "Technology"]

/-- Python `str.isalpha`: true iff the string is nonempty and every
character is alphabetic. -/
def pyIsAlpha (s : List Char) : Bool := !s.isEmpty && s.all Char.isAlpha

/-- Python substring test `needle in hay` on strings. -/
def pySubstring (needle : List Char) : List Char → Bool
  | [] => needle.isEmpty
  | c :: rest => needle.isPrefixOf (c :: rest) || pySubstring needle rest

/-- Line 290 of `app.py`:
`"".join([letter if letter in guessed_letters else '_' for letter in word_to_guess])`.
Each element of `guessed` is a (one-character) guess string. -/
def display_word (word : List Char) (guessed : List (List Char)) : List Char :=
  word.map (fun letter => if [letter] ∈ guessed then letter else '_')

/-- Line 293: `win = '_' not in display_word`. -/
def winOf (word : List Char) (guessed : List (List Char)) : Bool :=
  decide ('_' ∉ display_word word guessed)

/-- Line 294: `lives_index = MAX_LIVES - lives`. -/
def lives_index (lives : Int) : Int := MAX_LIVES - lives

/-- The per-session game state kept by `app.py` (`word_to_guess`,
`guessed_letters`, `lives`, `current_genre`, `message`). -/
structure GameState where
  word_to_guess : List Char
  guessed_letters : List (List Char)
  lives : Int
  current_genre : String
  message : String
  deriving DecidableEq, Repr

/-- Line 295: `is_game_over = win or (lives_index >= MAX_LIVES)`. -/
def is_game_over (s : GameState) : Bool :=
  winOf s.word_to_guess s.guessed_letters || decide (lives_index s.lives ≥ MAX_LIVES)

/-- The game is flagged won when `win` holds (line 297 of `app.py`). -/
def flaggedWon (s : GameState) : Bool :=
  winOf s.word_to_guess s.guessed_letters

/-- The game is flagged lost by the `elif lives_index >= MAX_LIVES` branch
(line 316 of `app.py`), taken only when `win` is false. -/
def flaggedLost (s : GameState) : Bool :=
  !flaggedWon s && decide (lives_index s.lives ≥ MAX_LIVES)

/-- Every character of the secret word occurs in the guessed-letter set. -/
def allLettersGuessed (s : GameState) : Bool :=
  s.word_to_guess.all (fun c => decide ([c] ∈ s.guessed_letters))

/-- Fresh state installed by `get_game_state` on first load
(lines 279-283 of `app.py`): fresh word, no guesses, `MAX_LIVES` lives. -/
def initState (word : List Char) (genre : String) : GameState :=
  { word_to_guess := word
    guessed_letters := []
    lives := MAX_LIVES
    current_genre := genre
    message := "Lets play Hangman! Category: **" ++ genre ++ "**" }

/-- The `/restart` route (lines 416-422 of `app.py`): reset word, guesses
and lives, keeping the current genre. -/
def restartState (s : GameState) (word : List Char) : GameState :=
  { word_to_guess := word
    guessed_letters := []
    lives := MAX_LIVES
    current_genre := s.current_genre
    message := "New game started! Category: **" ++ s.current_genre ++ "**" }

/-- The `genre_select` branch of the POST handler (lines 348-356):
reset the game under a newly selected genre. -/
def selectGenre (_s : GameState) (genre : String) (word : List Char) : GameState :=
  { word_to_guess := word
    guessed_letters := []
    lives := MAX_LIVES
    current_genre := genre
    message := "New game started! Category: **" ++ genre ++ "**" }

/-- The letter-guess branch of the POST handler (lines 361-384 of
`app.py`): reject the guess if the game is over; otherwise lower-case it,
report a repeat guess, process a valid single letter (appending it to the
guessed list and decrementing `lives` when it is not in the word), and
report invalid input otherwise. -/
def submitGuess (s : GameState) (raw : List Char) : GameState :=
  if is_game_over s then s
  else
    let guess := raw.map Char.toLower
    if guess ∈ s.guessed_letters then
      { s with message := "You already guessed " ++ String.mk (guess.map Char.toUpper) ++ "." }
    else if pyIsAlpha guess && guess.length == 1 then
      let guessed' := s.guessed_letters ++ [guess]
      if pySubstring guess s.word_to_guess then
        { s with guessed_letters := guessed'
                 message := "Correct guess: " ++ String.mk (guess.map Char.toUpper)
                   ++ " is in the word!" }
      else
        { s with guessed_letters := guessed'
                 lives := s.lives - 1
                 message := "Incorrect guess: " ++ String.mk (guess.map Char.toUpper)
                   ++ " is not in the word. " ++ toString (s.lives - 1) ++ " lives remaining." }
    else
      { s with message := "Invalid input. Please guess a single letter." }

/-- The session states reachable through the routes of `app.py`:
fresh initialisation, a letter guess, `/restart`, and genre selection. -/
inductive Reachable : GameState → Prop
  | start (word : List Char) (genre : String) : Reachable (initState word genre)
  | guess (s : GameState) (raw : List Char) : Reachable s → Reachable (submitGuess s raw)
  | restart (s : GameState) (word : List Char) : Reachable s → Reachable (restartState s word)
  | genre (s : GameState) (g : String) (word : List Char) :
      Reachable s → Reachable (selectGenre s g word)

/-- The only uncaught Python exception the embedding tracks:
`random.choice` on an empty sequence raises `IndexError`. -/
inductive PyErr
  | indexError
  deriving DecidableEq, Repr

/-- `random.choice`: returns an element of a nonempty list (the oracle
`k` fixes which one); raises `IndexError` on an empty list. -/
def pyRandomChoice (k : Nat) : List α → Except PyErr α
  | [] => Except.error PyErr.indexError
  | x :: xs => Except.ok ((x :: xs).get ⟨k % (x :: xs).length, Nat.mod_lt k (Nat.succ_pos _)⟩)

/-- One entry of `data['results']`: its `word` key, when present. -/
structure ApiItem where
  word : Option (List Char)
  deriving DecidableEq, Repr

/-- The parsed body `data = response.json()`: its Python truthiness and
its `results` key, when present. -/
structure ApiData where
  truthy : Bool
  results : Option (List ApiItem)
  deriving DecidableEq, Repr

/-- Outcome of one `requests.get` attempt: either a
`requests.exceptions.RequestException` (timeout, connection failure, or
bad status raised by `raise_for_status`) or a parsed response body. -/
inductive HttpOutcome
  | raised
  | response (data : ApiData)

/-- The fallback word dictionary used when `RAPIDAPI_KEY` is unset
(lines 144-149 of `app.py`), accessed as
`fallback_words.get(genre, fallback_words["Animals"])`. -/
def fallback_words (genre : String) : List (List Char) :=
  (if genre = "Animals" then ["elephant", "giraffe", "dolphin", "kangaroo", "cheetah"]
   else if genre = "Sports" then ["basketball", "football", "tennis", "swimming", "volleyball"]
   else if genre = "Technology" then ["computer", "keyboard", "internet", "software", "network"]
   else ["elephant", "giraffe", "dolphin", "kangaroo", "cheetah"]).map String.data

/-- `get_word_from_api` (lines 136-189 of `app.py`), as a function of the
configured API key, an oracle giving the outcome of each HTTP attempt and
a randomness oracle `pick`.  Returns the produced word, or the uncaught
Python exception that propagates, paired with the number of HTTP attempts
made.  The `except` clause catches only `RequestException`. -/
def get_word_from_api (rapidApiKey : Option String) (http : Nat → HttpOutcome)
    (pick : Nat) (genre : String) : Except PyErr (List Char) × Nat :=
  match rapidApiKey with
  | none =>
      ((pyRandomChoice pick (fallback_words genre)).map (List.map Char.toLower), 0)
  | some _ =>
      match http 0 with
      | HttpOutcome.raised =>
          ((pyRandomChoice pick
              (["elephant", "internet", "tennis", "application"].map String.data)).map
            (List.map Char.toLower), 1)
      | HttpOutcome.response data =>
          match data.truthy, data.results with
          | true, some (item :: rest) =>
              let word_list := (item :: rest).filterMap ApiItem.word
              if !word_list.isEmpty then
                ((pyRandomChoice pick
                    (word_list.filter (fun w => decide (' ' ∉ w)))).map
                  (List.map Char.toLower), 1)
              else
                ((pyRandomChoice pick
                    (["hangman", "python", "flask", "coding", "render"].map String.data)).map
                  (List.map Char.toLower), 1)
          | _, _ =>
              ((pyRandomChoice pick
                  (["hangman", "python", "flask", "coding", "render"].map String.data)).map
                (List.map Char.toLower), 1)

/-- The seven-stage ASCII art list `HANGMAN_STAGES` from `app.py`,
indexed by `lives_index` when rendering. -/
def HANGMAN_STAGES : List String :=
  [ "\n +---+\n |   |\n     |\n     |\n     |\n     |\n======="
  , "\n +---+\n |   |\n O   |\n     |\n     |\n     |\n======="
  , "\n +---+\n |   |\n O   |\n |   |\n     |\n     |\n======="
  , "\n +---+\n |   |\n O   |\n/|   |\n     |\n     |\n======="
  , "\n +---+\n |   |\n O   |\n/|\\  |\n     |\n     |\n======="
  , "\n +---+\n |   |\n O   |\n/|\\  |\n/    |\n     |\n======="
  , "\n +---+\n |   |\n O   |\n/|\\  |\n/ \\  |\n     |\n=======" ]

/-- Characterisation of the win test: `'_' not in display_word` holds iff
every character of the word is a guessed letter distinct from `'_'`. -/
lemma winOf_iff (w : List Char) (g : List (List Char)) :
    winOf w g = true ↔ ∀ c ∈ w, [c] ∈ g ∧ c ≠ '_' := by
  unfold winOf display_word
  rw [decide_eq_true_iff, List.mem_map]
  push_neg
  constructor
  · intro h c hc
    have h2 := h c hc
    by_cases hm : [c] ∈ g
    · rw [if_pos hm] at h2
      exact ⟨hm, h2⟩
    · rw [if_neg hm] at h2
      exact absurd rfl h2
  · intro h c hc
    obtain ⟨hm, hne⟩ := h c hc
    rw [if_pos hm]
    exact hne

/-- When every guessed entry is alphabetic, the win test says exactly
that every character of the word has been guessed. -/
lemma winOf_iff_all (w : List Char) (g : List (List Char))
    (hg : ∀ x ∈ g, pyIsAlpha x = true) :
    winOf w g = true ↔ ∀ c ∈ w, [c] ∈ g := by
  rw [winOf_iff]
  constructor
  · exact fun h c hc => (h c hc).1
  · intro h c hc
    refine ⟨h c hc, ?_⟩
    have halpha := hg [c] (h c hc)
    simp only [pyIsAlpha, List.isEmpty_cons, Bool.not_false, List.all_cons, List.all_nil,
      Bool.and_true, Bool.true_and] at halpha
    intro hEq
    rw [hEq] at halpha
    exact absurd halpha (by decide)

/-- Python `c in w` for a one-character needle is character membership. -/
lemma pySubstring_singleton (c : Char) (w : List Char) :
    pySubstring [c] w = true ↔ c ∈ w := by
  induction w with
  | nil => simp [pySubstring]
  | cons a t ih =>
    simp [pySubstring, List.isPrefixOf, ih]

/-- Adding a guess that does not occur in the word cannot make the win
test true. -/
lemma winOf_append_not_mem (w : List Char) (g : List (List Char)) (c : Char)
    (hw : winOf w g = false) (hc : c ∉ w) :
    winOf w (g ++ [[c]]) = false := by
  cases hwin : winOf w (g ++ [[c]]) with
  | false => rfl
  | true =>
    exfalso
    have hall := (winOf_iff w (g ++ [[c]])).1 hwin
    have : winOf w g = true := by
      rw [winOf_iff]
      intro ch hch
      obtain ⟨hm, hne⟩ := hall ch hch
      rcases List.mem_append.1 hm with hmg | hms
      · exact ⟨hmg, hne⟩
      · exfalso
        have hchc : ch = c := by simpa using List.mem_singleton.1 hms
        exact hc (hchc ▸ hch)
    rw [this] at hw
    exact Bool.true_eq_false.mp hw

/-- The state invariants maintained by every route of `app.py`: lives
stay in `0 .. MAX_LIVES`, every recorded guess is a single alphabetic
letter, and a state with zero lives is not a winning state. -/
def GoodState (s : GameState) : Prop :=
  0 ≤ s.lives ∧ s.lives ≤ MAX_LIVES ∧
  (∀ x ∈ s.guessed_letters, pyIsAlpha x = true ∧ x.length = 1) ∧
  (s.lives = 0 → winOf s.word_to_guess s.guessed_letters = false)

lemma goodState_init (word : List Char) (genre : String) :
    GoodState (initState word genre) := by
  refine ⟨by norm_num [initState, MAX_LIVES], by norm_num [initState, MAX_LIVES],
    by intro x hx; simp [initState] at hx, ?_⟩
  intro h
  simp [initState, MAX_LIVES] at h

lemma goodState_restart (s : GameState) (word : List Char) :
    GoodState (restartState s word) := by
  refine ⟨by norm_num [restartState, MAX_LIVES], by norm_num [restartState, MAX_LIVES],
    by intro x hx; simp [restartState] at hx, ?_⟩
  intro h
  simp [restartState, MAX_LIVES] at h

lemma goodState_selectGenre (s : GameState) (genre : String) (word : List Char) :
    GoodState (selectGenre s genre word) := by
  refine ⟨by norm_num [selectGenre, MAX_LIVES], by norm_num [selectGenre, MAX_LIVES],
    by intro x hx; simp [selectGenre] at hx, ?_⟩
  intro h
  simp [selectGenre, MAX_LIVES] at h

/-- Case analysis of the guess handler: either only the message changes
(game over, repeat guess, or invalid input), or a fresh valid letter is
appended, decrementing `lives` exactly when the letter does not occur in
the word. -/
lemma submitGuess_cases (s : GameState) (raw : List Char) :
    (∃ m, submitGuess s raw = { s with message := m }) ∨
    ((pyIsAlpha (raw.map Char.toLower) && ((raw.map Char.toLower).length == 1)) = true ∧
      is_game_over s = false ∧ raw.map Char.toLower ∉ s.guessed_letters ∧
      ((pySubstring (raw.map Char.toLower) s.word_to_guess = true ∧
        ∃ m, submitGuess s raw =
          { s with guessed_letters := s.guessed_letters ++ [raw.map Char.toLower],
                   message := m }) ∨
       (pySubstring (raw.map Char.toLower) s.word_to_guess = false ∧
        ∃ m, submitGuess s raw =
          { s with guessed_letters := s.guessed_letters ++ [raw.map Char.toLower],
                   lives := s.lives - 1, message := m }))) := by
  by_cases hover : is_game_over s = true
  · exact Or.inl ⟨s.message, by simp [submitGuess, hover]⟩
  · have hover' : is_game_over s = false := by simpa using hover
    by_cases hrep : raw.map Char.toLower ∈ s.guessed_letters
    · refine Or.inl ⟨"You already guessed "
        ++ String.mk ((raw.map Char.toLower).map Char.toUpper) ++ ".", ?_⟩
      simp [submitGuess, hover, hrep]
    · by_cases hval :
        (pyIsAlpha (raw.map Char.toLower) && ((raw.map Char.toLower).length == 1)) = true
      · have hval2 : pyIsAlpha (raw.map Char.toLower) = true ∧ raw.length = 1 := by
          simpa using hval
        by_cases hin : pySubstring (raw.map Char.toLower) s.word_to_guess = true
        · refine Or.inr ⟨hval, hover', hrep, Or.inl ⟨hin, ⟨"Correct guess: "
            ++ String.mk ((raw.map Char.toLower).map Char.toUpper) ++ " is in the word!", ?_⟩⟩⟩
          simp [submitGuess, hover, hrep, hval2, hin]
        · have hin' : pySubstring (raw.map Char.toLower) s.word_to_guess = false := by
            simpa using hin
          refine Or.inr ⟨hval, hover', hrep, Or.inr ⟨hin', ⟨"Incorrect guess: "
            ++ String.mk ((raw.map Char.toLower).map Char.toUpper) ++ " is not in the word. "
            ++ toString (s.lives - 1) ++ " lives remaining.", ?_⟩⟩⟩
          simp [submitGuess, hover, hrep, hval2, hin]
      · have hval' : ¬(pyIsAlpha (raw.map Char.toLower) = true ∧ raw.length = 1) := by
          simpa using hval
        exact Or.inl ⟨"Invalid input. Please guess a single letter.",
          by simp [submitGuess, hover, hrep, hval']⟩

lemma goodState_submitGuess (s : GameState) (raw : List Char) (h : GoodState s) :
    GoodState (submitGuess s raw) := by
  obtain ⟨h0, h6, hA, hW⟩ := h
  rcases submitGuess_cases s raw with ⟨m, hm⟩ | ⟨hval, hover, hrep, hcase⟩
  · rw [hm]
    exact ⟨h0, h6, hA, hW⟩
  · have hval2 : pyIsAlpha (raw.map Char.toLower) = true ∧ raw.length = 1 := by
      simpa using hval
    have hlen : (raw.map Char.toLower).length = 1 := by simp [hval2.2]
    obtain ⟨c, hc⟩ := List.length_eq_one.1 hlen
    have hwfalse : winOf s.word_to_guess s.guessed_letters = false := by
      have h' := hover
      simp only [is_game_over, Bool.or_eq_false_iff] at h'
      exact h'.1
    have hposlives : 0 < s.lives := by
      have h' := hover
      simp only [is_game_over, Bool.or_eq_false_iff, decide_eq_false_iff_not, not_le,
        lives_index, MAX_LIVES] at h'
      omega
    have hguessed : ∀ x ∈ s.guessed_letters ++ [raw.map Char.toLower],
        pyIsAlpha x = true ∧ x.length = 1 := by
      intro x hx
      rcases List.mem_append.1 hx with hx | hx
      · exact hA x hx
      · have hx' : x = raw.map Char.toLower := by simpa using hx
        subst hx'
        exact ⟨hval2.1, hlen⟩
    rcases hcase with ⟨_, m, hm⟩ | ⟨hin, m, hm⟩
    · rw [hm]
      refine ⟨h0, h6, hguessed, ?_⟩
      intro hz
      have hz' : s.lives = 0 := hz
      exact absurd hz' (by omega)
    · rw [hm]
      have h6' : s.lives ≤ 6 := by simpa [MAX_LIVES] using h6
      refine ⟨?_, ?_, hguessed, ?_⟩
      · show 0 ≤ s.lives - 1
        omega
      · show s.lives - 1 ≤ MAX_LIVES
        simp only [MAX_LIVES]
        omega
      intro _
      have hcnot : c ∉ s.word_to_guess := by
        intro hmem
        have hsub := (pySubstring_singleton c s.word_to_guess).2 hmem
        rw [← hc] at hsub
        rw [hin] at hsub
        exact absurd hsub (by decide)
      have hgoal : winOf s.word_to_guess (s.guessed_letters ++ [raw.map Char.toLower]) = false := by
        rw [hc]
        exact winOf_append_not_mem _ _ c hwfalse hcnot
      exact hgoal

/-- Every reachable session state satisfies the invariants. -/
lemma reachable_good (s : GameState) (h : Reachable s) : GoodState s := by
  induction h with
  | start word genre => exact goodState_init word genre
  | guess s raw _ ih => exact goodState_submitGuess s raw ih
  | restart s word _ _ => exact goodState_restart s word
  | genre s g word _ _ => exact goodState_selectGenre s g word

/-- C9: the word-mask function is idempotent: applying the mask to its
own output with the same guessed set yields the same string as applying
it once. -/
theorem mask_idempotent_c9 (w : List Char) (g : List (List Char)) :
    display_word (display_word w g) g = display_word w g := by
  unfold display_word
  rw [List.map_map]
  apply List.map_congr_left
  intro c _
  by_cases h : [c] ∈ g
  · simp [h]
  · simp [h]

/-- Modelled from the spec (section 4.1 words the mask output as having
its tokens space-separated): the masked word with a space between
consecutive per-character tokens. -/
def display_word_spaced (word : List Char) (guessed : List (List Char)) : List Char :=
  List.intersperse ' ' (display_word word guessed)

/-- C3 counterexample: the mask function of the code concatenates the
per-character tokens without separators, so on the word `"ab"` with no
guesses it differs from the space-separated form the claim describes. -/
theorem mask_not_space_separated_c3 :
    display_word ['a', 'b'] [] ≠ display_word_spaced ['a', 'b'] [] := by decide

/-- C3 (amended): the mask output has exactly one character per character
of the secret word — the character itself when guessed, the placeholder
`'_'` otherwise — with the tokens concatenated without separators. -/
theorem mask_tokens_c3 (w : List Char) (g : List (List Char)) (i : Nat)
    (h : i < w.length) :
    (display_word w g).length = w.length ∧
    (display_word w g)[i]? = some (if [w[i]] ∈ g then w[i] else '_') := by
  refine ⟨by simp [display_word], ?_⟩
  simp [display_word, List.getElem?_map, List.getElem?_eq_getElem h]

theorem mask_tokens_c3_witness :
    (0 : Nat) < (['a', 'b'] : List Char).length ∧
    ((display_word ['a', 'b'] [['a']]).length = (['a', 'b'] : List Char).length ∧
      (display_word ['a', 'b'] [['a']])[0]? =
        some (if [(['a', 'b'] : List Char)[0]] ∈ [['a']] then (['a', 'b'] : List Char)[0]
          else '_')) :=
  ⟨by decide, mask_tokens_c3 ['a', 'b'] [['a']] 0 (by decide)⟩

/-- C4: the number of non-placeholder characters in the mask output
equals the number of characters of the word present in the guessed set
(whose entries are alphabetic letters). -/
theorem mask_count_c4 (w : List Char) (g : List (List Char))
    (hg : ∀ x ∈ g, pyIsAlpha x = true) :
    ((display_word w g).filter (fun c => !(c == '_'))).length =
      (w.filter (fun c => decide ([c] ∈ g))).length := by
  induction w with
  | nil => rfl
  | cons c w ih =>
    simp only [display_word, List.map_cons] at ih ⊢
    by_cases h : [c] ∈ g
    · have hc : c.isAlpha = true := by
        have := hg [c] h
        simpa [pyIsAlpha] using this
      have hne : (c == '_') = false := by
        simp only [beq_eq_false_iff_ne, ne_eq]
        intro hEq
        rw [hEq] at hc
        exact absurd hc (by decide)
      simp [List.filter_cons, h, hne, ih]
    · simp [List.filter_cons, h, ih]

theorem mask_count_c4_witness :
    (∀ x ∈ [['a']], pyIsAlpha x = true) ∧
    ((display_word ['a', 'b'] [['a']]).filter (fun c => !(c == '_'))).length =
      ((['a', 'b'] : List Char).filter (fun c => decide ([c] ∈ [['a']]))).length :=
  ⟨by decide, mask_count_c4 ['a', 'b'] [['a']] (by decide)⟩

/-- C1: in every reachable session state, the computed game-over flag is
true iff every character of the secret word is guessed or the remaining
lives have reached zero; a fully guessed word is flagged won and a state
with zero lives is flagged lost. -/
theorem game_over_iff_c1 (s : GameState) (h : Reachable s) :
    (is_game_over s = true ↔ (allLettersGuessed s = true ∨ s.lives = 0)) ∧
    (allLettersGuessed s = true → flaggedWon s = true) ∧
    (s.lives = 0 → flaggedLost s = true) := by
  obtain ⟨h0, h6, hA, hW⟩ := reachable_good s h
  have h0' : 0 ≤ s.lives := h0
  have hwin_iff : winOf s.word_to_guess s.guessed_letters = true ↔
      allLettersGuessed s = true := by
    rw [winOf_iff_all _ _ (fun x hx => (hA x hx).1)]
    simp [allLettersGuessed]
  refine ⟨?_, ?_, ?_⟩
  · constructor
    · intro hov
      have hov' : winOf s.word_to_guess s.guessed_letters = true ∨
          lives_index s.lives ≥ MAX_LIVES := by
        simpa [is_game_over] using hov
      rcases hov' with hw | hl
      · exact Or.inl (hwin_iff.1 hw)
      · right
        simp only [lives_index, MAX_LIVES] at hl
        omega
    · rintro (hg | hl)
      · have hw := hwin_iff.2 hg
        simp [is_game_over, hw]
      · simp only [is_game_over, lives_index, MAX_LIVES, hl, Bool.or_eq_true,
          decide_eq_true_eq]
        right
        omega
  · intro hg
    exact hwin_iff.2 hg
  · intro hl
    have hw0 := hW hl
    simp [flaggedLost, flaggedWon, hw0, lives_index, MAX_LIVES, hl]

theorem game_over_iff_c1_witness :
    Reachable (initState ['a'] "Animals") ∧
    ((is_game_over (initState ['a'] "Animals") = true ↔
        (allLettersGuessed (initState ['a'] "Animals") = true ∨
          (initState ['a'] "Animals").lives = 0)) ∧
      (allLettersGuessed (initState ['a'] "Animals") = true →
        flaggedWon (initState ['a'] "Animals") = true) ∧
      ((initState ['a'] "Animals").lives = 0 →
        flaggedLost (initState ['a'] "Animals") = true)) :=
  ⟨Reachable.start ['a'] "Animals", game_over_iff_c1 _ (Reachable.start ['a'] "Animals")⟩

/-- C2: in every reachable session state, lives lie in `0 .. MAX_LIVES`;
lives start at `MAX_LIVES`; one guess decrements lives at most once; and
re-submitting an already guessed letter never decrements lives. -/
theorem lives_bounds_c2 (s : GameState) (h : Reachable s) (raw word : List Char)
    (genre : String) :
    0 ≤ s.lives ∧ s.lives ≤ MAX_LIVES ∧
    (initState word genre).lives = MAX_LIVES ∧
    s.lives - 1 ≤ (submitGuess s raw).lives ∧
    (submitGuess s raw).lives ≤ s.lives ∧
    (raw.map Char.toLower ∈ s.guessed_letters → (submitGuess s raw).lives = s.lives) := by
  obtain ⟨h0, h6, hA, hW⟩ := reachable_good s h
  have hlives : (submitGuess s raw).lives = s.lives ∨
      ((submitGuess s raw).lives = s.lives - 1 ∧
        raw.map Char.toLower ∉ s.guessed_letters) := by
    rcases submitGuess_cases s raw with ⟨m, hm⟩ | ⟨hval, hover, hrep, hcase⟩
    · left
      rw [hm]
    · rcases hcase with ⟨_, m, hm⟩ | ⟨_, m, hm⟩
      · left
        rw [hm]
      · right
        exact ⟨by rw [hm], hrep⟩
  refine ⟨h0, h6, rfl, ?_, ?_, ?_⟩
  · rcases hlives with h1 | ⟨h1, _⟩ <;> omega
  · rcases hlives with h1 | ⟨h1, _⟩ <;> omega
  · intro hmem
    rcases hlives with h1 | ⟨_, h2⟩
    · exact h1
    · exact absurd hmem h2

theorem lives_bounds_c2_witness :
    Reachable (submitGuess (initState ['a'] "Animals") ['a']) ∧
    (0 ≤ (submitGuess (initState ['a'] "Animals") ['a']).lives ∧
      (submitGuess (initState ['a'] "Animals") ['a']).lives ≤ MAX_LIVES ∧
      (initState ['b'] "Sports").lives = MAX_LIVES ∧
      (submitGuess (initState ['a'] "Animals") ['a']).lives - 1 ≤
        (submitGuess (submitGuess (initState ['a'] "Animals") ['a']) ['a']).lives ∧
      (submitGuess (submitGuess (initState ['a'] "Animals") ['a']) ['a']).lives ≤
        (submitGuess (initState ['a'] "Animals") ['a']).lives ∧
      ((['a'] : List Char).map Char.toLower ∈
          (submitGuess (initState ['a'] "Animals") ['a']).guessed_letters →
        (submitGuess (submitGuess (initState ['a'] "Animals") ['a']) ['a']).lives =
          (submitGuess (initState ['a'] "Animals") ['a']).lives)) :=
  ⟨Reachable.guess _ ['a'] (Reachable.start ['a'] "Animals"),
    lives_bounds_c2 _ (Reachable.guess _ ['a'] (Reachable.start ['a'] "Animals"))
      ['a'] ['b'] "Sports"⟩

/-- C5: terminal states are sticky: when the game is over, a further
submitted guess leaves the whole session state unchanged. -/
theorem terminal_sticky_c5 (s : GameState) (raw : List Char)
    (h : is_game_over s = true) :
    submitGuess s raw = s := by
  simp [submitGuess, h]

theorem terminal_sticky_c5_witness :
    is_game_over (initState [] "Animals") = true ∧
    submitGuess (initState [] "Animals") ['a'] = initState [] "Animals" :=
  ⟨by decide, terminal_sticky_c5 _ _ (by decide)⟩

/-- C6: an invalid guess (non-alphabetic or not of length 1) in a live
reachable game leaves lives, guessed letters, secret word and genre
unchanged, setting only the error message. -/
theorem invalid_guess_c6 (s : GameState) (raw : List Char) (h : Reachable s)
    (hlive : is_game_over s = false)
    (hinv : ¬(pyIsAlpha (raw.map Char.toLower) = true ∧
        (raw.map Char.toLower).length = 1)) :
    (submitGuess s raw).lives = s.lives ∧
    (submitGuess s raw).guessed_letters = s.guessed_letters ∧
    (submitGuess s raw).word_to_guess = s.word_to_guess ∧
    (submitGuess s raw).current_genre = s.current_genre ∧
    (submitGuess s raw).message = "Invalid input. Please guess a single letter." := by
  obtain ⟨_, _, hA, _⟩ := reachable_good s h
  have hrep : raw.map Char.toLower ∉ s.guessed_letters := fun hmem =>
    hinv ⟨(hA _ hmem).1, (hA _ hmem).2⟩
  have hval' : ¬(pyIsAlpha (raw.map Char.toLower) = true ∧ raw.length = 1) := by
    intro hx
    exact hinv ⟨hx.1, by simpa using hx.2⟩
  have hover : ¬ is_game_over s = true := by simp [hlive]
  have hs : submitGuess s raw =
      { s with message := "Invalid input. Please guess a single letter." } := by
    simp [submitGuess, hover, hrep, hval']
  rw [hs]
  exact ⟨rfl, rfl, rfl, rfl, rfl⟩

theorem invalid_guess_c6_witness :
    Reachable (initState ['a'] "Animals") ∧
    is_game_over (initState ['a'] "Animals") = false ∧
    ¬(pyIsAlpha ((['1'] : List Char).map Char.toLower) = true ∧
        ((['1'] : List Char).map Char.toLower).length = 1) ∧
    ((submitGuess (initState ['a'] "Animals") ['1']).lives =
        (initState ['a'] "Animals").lives ∧
      (submitGuess (initState ['a'] "Animals") ['1']).guessed_letters =
        (initState ['a'] "Animals").guessed_letters ∧
      (submitGuess (initState ['a'] "Animals") ['1']).word_to_guess =
        (initState ['a'] "Animals").word_to_guess ∧
      (submitGuess (initState ['a'] "Animals") ['1']).current_genre =
        (initState ['a'] "Animals").current_genre ∧
      (submitGuess (initState ['a'] "Animals") ['1']).message =
        "Invalid input. Please guess a single letter.") :=
  ⟨Reachable.start ['a'] "Animals", by decide, by decide,
    invalid_guess_c6 _ ['1'] (Reachable.start ['a'] "Animals") (by decide) (by decide)⟩

/-- C7 (code bug): with an API key configured and a well-formed response
in which every offered word contains a space, the single-word filter in
`get_word_from_api` empties the candidate list and `random.choice` raises
an uncaught `IndexError` — no fallback word is substituted, contradicting
the never-propagate-an-error policy. -/
theorem api_uncaught_indexerror_c7 :
    get_word_from_api (some "key")
      (fun _ => HttpOutcome.response
        { truthy := true
          results := some [{ word := some ['i', 'c', 'e', ' ', 'c', 'r', 'e', 'a', 'm'] }] })
      0 "Animals" = (Except.error PyErr.indexError, 1) := by
  rfl

/-- C8 counterexample: with the HTTP attempt failing persistently, the
code makes exactly one attempt before substituting the fallback word —
not the three attempts of the claimed retry loop. -/
theorem api_no_retry_c8_counterexample :
    (get_word_from_api (some "key") (fun _ => HttpOutcome.raised) 0 "Animals").2 = 1 ∧
    (get_word_from_api (some "key") (fun _ => HttpOutcome.raised) 0 "Animals").2 ≠ 3 :=
  ⟨rfl, by decide⟩

/-- C8 (amended): `get_word_from_api` performs exactly one HTTP attempt
per invocation when an API key is configured — there is no retry loop —
and no attempt at all when the key is missing. -/
theorem api_single_attempt_c8 (key : String) (http : Nat → HttpOutcome) (pick : Nat)
    (genre : String) :
    (get_word_from_api (some key) http pick genre).2 = 1 ∧
    (get_word_from_api none http pick genre).2 = 0 := by
  refine ⟨?_, rfl⟩
  unfold get_word_from_api
  cases http 0 with
  | raised => rfl
  | response data =>
    rcases data with ⟨t, r⟩
    cases t
    · rfl
    · cases r with
      | none => rfl
      | some l =>
        cases l with
        | nil => rfl
        | cons item rest =>
          dsimp only
          split <;> rfl

/-- C10: whenever lives lie in `0 .. MAX_LIVES`, the art index
`MAX_LIVES - lives` is within the bounds of the 7-element
`HANGMAN_STAGES` list, so the rendering lookup always succeeds. -/
theorem art_index_c10 (lives : Int) (h : 0 ≤ lives ∧ lives ≤ MAX_LIVES) :
    HANGMAN_STAGES.length = 7 ∧
    0 ≤ lives_index lives ∧
    (lives_index lives).toNat < HANGMAN_STAGES.length ∧
    HANGMAN_STAGES[(lives_index lives).toNat]?.isSome = true := by
  obtain ⟨h0, h6⟩ := h
  have h6' : lives ≤ 6 := by simpa [MAX_LIVES] using h6
  have hlt : (lives_index lives).toNat < 7 := by
    simp only [lives_index, MAX_LIVES]
    omega
  have hlen : HANGMAN_STAGES.length = 7 := by rfl
  refine ⟨hlen, ?_, ?_, ?_⟩
  · simp only [lives_index, MAX_LIVES]
    omega
  · rw [hlen]
    exact hlt
  · rw [List.getElem?_eq_getElem (by rw [hlen]; exact hlt)]
    rfl

theorem art_index_c10_witness :
    ((0 : Int) ≤ 3 ∧ (3 : Int) ≤ MAX_LIVES) ∧
    (HANGMAN_STAGES.length = 7 ∧
      0 ≤ lives_index 3 ∧
      (lives_index 3).toNat < HANGMAN_STAGES.length ∧
      HANGMAN_STAGES[(lives_index 3).toNat]?.isSome = true) :=
  ⟨⟨by decide, by decide⟩, art_index_c10 3 ⟨by decide, by decide⟩⟩
